import Mathlib

/-! Receiver UI of Portal (`ui/receiver/receiver.go`)

A shallow embedding of the Bubble Tea model `receiverUIModel`: its reducer
`Update` and its renderer `View`, followed by the properties established for
them.

Conventions.
* Go `string` is `String`; `sort.Strings` compares byte-wise, which for UTF-8
  text is the lexicographic order of the code points, `a.data ≤ b.data`.
* Go `int64` fields that are only stored and passed on are `Int`; the one
  place that computes on `int` (`tea.WindowSizeMsg`) wraps explicitly.
* Everything imported from outside the file (the widget library, the `ui` and
  `tools` packages, the floating-point type) is gathered in `Deps` and taken
  as a parameter.
-/

namespace receiverui

/-! ## Go standard library pieces used by the file -/

/-- Pieces of a character list around each occurrence of `sep`: what
`strings.Split` does for a one-character separator. -/
def splitChars (sep : Char) : List Char → List (List Char)
  | [] => [[]]
  | c :: cs =>
    if c = sep then [] :: splitChars sep cs
    else
      match splitChars sep cs with
      | [] => [[c]]
      | p :: ps => (c :: p) :: ps

/-- Go `strings.Split(s, sep)` for a separator of one character. -/
def Split (s : String) (sep : Char) : List String :=
  (splitChars sep s.data).map String.mk

/-- Go `strings.Repeat(s, count)`. -/
def Repeat (s : String) : Nat → String
  | 0 => ""
  | n + 1 => s ++ Repeat s n

/-- Go `strings.Join(elems, sep)`. -/
def Join : List String → String → String
  | [], _ => ""
  | [a], _ => a
  | a :: b :: rest, sep => a ++ sep ++ Join (b :: rest) sep

/-- Byte-wise string comparison `a <= b` of Go, as a decidable relation. -/
def strLE (a b : String) : Prop := a.data ≤ b.data

instance strLE.decidable : DecidableRel strLE := fun a b =>
  inferInstanceAs (Decidable (a.data ≤ b.data))

/-- Go `sort.Strings`: the increasing rearrangement of the slice. -/
def sortStrings (l : List String) : List String :=
  l.insertionSort strLE

/-- Go `int` arithmetic on a 64-bit platform: results wrap modulo `2^64`. -/
def wrapInt (x : Int) : Int := (x + 2 ^ 63) % 2 ^ 64 - 2 ^ 63

/-! ## Go maps -/

/-- Go `map[string]int`, kept as an association list with one pair per key. -/
abbrev GoMap := List (String × Nat)

/-- The two-valued read `v, ok := m[k]`. -/
def GoMap.get (m : GoMap) (k : String) : Nat × Bool :=
  match m with
  | [] => (0, false)
  | (k', v) :: rest => if k' = k then (v, true) else GoMap.get rest k

/-- The assignment `m[k] = v`. -/
def GoMap.set (m : GoMap) (k : String) (v : Nat) : GoMap :=
  match m with
  | [] => [(k, v)]
  | (k', v') :: rest => if k' = k then (k, v) :: rest else (k', v') :: GoMap.set rest k v

/-! ## External packages -/

/-- The command type `tea.Cmd`: `nil`, the library's `tea.Quit`, or a command
handed back by one of the widgets. -/
inductive Cmd (C : Type) where
  | nil : Cmd C
  | Quit : Cmd C
  | widget (c : C) : Cmd C
  deriving DecidableEq, Repr

/-- The type `progress.Model` of the widget library: its exported field
`Width`, which `Update` assigns, and the remaining fields. -/
structure ProgressModel (B : Type) where
  Width : Int
  rest : B
  deriving DecidableEq, Repr

/-- Everything `receiver.go` imports: the Bubble Tea widgets, the `ui` package
(constants and styles), `tools.ByteCountSI`, the text reflow helpers and the
floating-point numbers handed to the progress bar. -/
structure Deps where
  /-- Go `spinner.Model` -/
  Spinner : Type
  /-- the unexported part of `progress.Model` -/
  Bar : Type
  /-- commands produced by the widgets -/
  WidgetCmd : Type
  /-- Go `tea.KeyMsg` -/
  Key : Type
  /-- Go `progress.FrameMsg` -/
  Frame : Type
  /-- every message type without a case of its own in `Update` -/
  Other : Type
  /-- Go `float32`, the type of `ui.ProgressMsg.Progress` -/
  F32 : Type
  /-- Go `float64` -/
  F64 : Type
  /-- the conversion `float64(x)` -/
  toF64 : F32 → F64
  /-- the literal `1.0` -/
  one : F64
  /-- Go `ui.PADDING` -/
  PADDING : Nat
  /-- Go `ui.MAX_WIDTH` -/
  MAX_WIDTH : Int
  /-- Go `ui.QuitKeys` -/
  QuitKeys : List String
  /-- Go `ui.SPINNER_COLOR` applied to `spinner.NewModel()` with `spinner.Dot` -/
  newSpinner : Spinner
  /-- Go `ui.ProgressBar` -/
  ProgressBar : ProgressModel Bar
  /-- Go `ui.HelpStyle` -/
  HelpStyle : String → String
  /-- Go `ui.InfoStyle` -/
  InfoStyle : String → String
  /-- Go `ui.BoldText` -/
  BoldText : String → String
  /-- Go `ui.ItalicText` -/
  ItalicText : String → String
  /-- Go `tools.ByteCountSI` -/
  ByteCountSI : Int → String
  /-- Go `tea.KeyMsg.String` -/
  keyString : Key → String
  /-- Go `strings.ToLower` -/
  ToLower : String → String
  /-- Go `(*progress.Model).SetPercent`: the bar after the call and its command -/
  SetPercent : ProgressModel Bar → F64 → ProgressModel Bar × Cmd WidgetCmd
  /-- Go `progress.Model.Update` on a frame message -/
  progressUpdate : ProgressModel Bar → Frame → ProgressModel Bar × Cmd WidgetCmd
  /-- Go `spinner.Model.Update` -/
  spinnerUpdate : Spinner → Other → Spinner × Cmd WidgetCmd
  /-- Go `spinner.Model.View` -/
  spinnerView : Spinner → String
  /-- Go `progress.Model.View` -/
  progressView : ProgressModel Bar → String
  /-- Go `wordwrap.String` -/
  wordwrap : String → Int → String
  /-- Go `indent.String` -/
  indent : String → Nat → String

/-- Modelled from the spec: `tools.Contains`, whose source is not part of this
excerpt. The spec describes the quit keys as a configured set that a key press
is tested against, so it is membership of the string in the slice. -/
def Contains (s : List String) (str : String) : Bool :=
  s.any (fun v => v == str)

/-! ## Data model -/

/-- The Go type `uiState` (an `int`). -/
abbrev uiState := Int

/-- First constant of the `iota` block. -/
abbrev showEstablishing : uiState := 0
/-- Second constant of the `iota` block. -/
abbrev showReceivingProgress : uiState := 1
/-- Third constant of the `iota` block. -/
abbrev showFinished : uiState := 2
/-- Fourth constant of the `iota` block. -/
abbrev showError : uiState := 3

/-- The Go struct `receiverUIModel`. -/
structure receiverUIModel (D : Deps) where
  state : uiState
  receivedFiles : List String
  payloadSize : Int
  decompressedPayloadSize : Int
  spinner : D.Spinner
  progressBar : ProgressModel D.Bar
  errorMessage : String

/-- The messages `Update` switches on, one constructor per case of the type
switch and `other` for its `default` branch. -/
inductive Msg (D : Deps) where
  /-- Go `ui.FileInfoMsg{Bytes}` -/
  | FileInfoMsg (Bytes : Int)
  /-- Go `ui.ProgressMsg{Progress}` -/
  | ProgressMsg (Progress : D.F32)
  /-- Go `FinishedMsg{ReceivedFiles, DecompressedPayloadSize}` -/
  | FinishedMsg (ReceivedFiles : List String) (DecompressedPayloadSize : Int)
  /-- Go `ui.ErrorMsg{Message}` -/
  | ErrorMsg (Message : String)
  /-- Go `tea.KeyMsg` -/
  | KeyMsg (key : D.Key)
  /-- Go `tea.WindowSizeMsg{Width}` -/
  | WindowSizeMsg (Width : Int)
  /-- Go `progress.FrameMsg` -/
  | FrameMsg (frame : D.Frame)
  /-- any other message -/
  | other (msg : D.Other)

/-- Whether the message is a `ui.FileInfoMsg`. -/
def Msg.isFileInfo {D : Deps} : Msg D → Bool
  | .FileInfoMsg _ => true
  | _ => false

/-- The model `NewReceiverUI` hands to `tea.NewProgram`: every field not named
in the composite literal has its zero value. -/
def NewReceiverUI (D : Deps) : receiverUIModel D :=
  { state := 0
    receivedFiles := []
    payloadSize := 0
    decompressedPayloadSize := 0
    spinner := D.newSpinner
    progressBar := D.ProgressBar
    errorMessage := "" }

/-! ## The reducer -/

/-- The method `receiverUIModel.Update`. -/
def Update (D : Deps) (m : receiverUIModel D) (msg : Msg D) :
    receiverUIModel D × Cmd D.WidgetCmd :=
  match msg with
  | .FileInfoMsg Bytes =>
    ({ m with state := showReceivingProgress, payloadSize := Bytes }, Cmd.nil)
  | .ProgressMsg Progress =>
    let r := D.SetPercent m.progressBar (D.toF64 Progress)
    ({ m with state := showReceivingProgress, progressBar := r.1 }, r.2)
  | .FinishedMsg ReceivedFiles DecompressedPayloadSize =>
    let r := D.SetPercent m.progressBar D.one
    ({ m with
        state := showFinished
        receivedFiles := ReceivedFiles
        decompressedPayloadSize := DecompressedPayloadSize
        progressBar := r.1 }, r.2)
  | .ErrorMsg Message =>
    ({ m with state := showError, errorMessage := Message }, Cmd.nil)
  | .KeyMsg key =>
    if Contains D.QuitKeys (D.ToLower (D.keyString key)) then (m, Cmd.Quit)
    else (m, Cmd.nil)
  | .WindowSizeMsg Width =>
    let w := wrapInt (wrapInt (Width - 2 * (D.PADDING : Int)) - 4)
    let w := if w > D.MAX_WIDTH then D.MAX_WIDTH else w
    ({ m with progressBar := { m.progressBar with Width := w } }, Cmd.nil)
  | .FrameMsg frame =>
    let r := D.progressUpdate m.progressBar frame
    ({ m with progressBar := r.1 }, r.2)
  | .other x =>
    let r := D.spinnerUpdate m.spinner x
    ({ m with spinner := r.1 }, r.2)

/-- The model after a sequence of events, each applied by `Update`. -/
def run (D : Deps) (m : receiverUIModel D) : List (Msg D) → receiverUIModel D
  | [] => m
  | e :: es => run D (Update D m e).1 es

/-- The percentage `Update` hands to `progressBar.SetPercent` for a message:
`float64(msg.Progress)` for a `ui.ProgressMsg`, `1.0` for a `FinishedMsg`, and
none for the cases that do not call it. -/
def SetPercentArg (D : Deps) : Msg D → Option D.F64
  | .ProgressMsg Progress => some (D.toF64 Progress)
  | .FinishedMsg _ _ => some D.one
  | _ => none

/-! ## The renderer -/

/-- Top-level name of a received path: `strings.Split(f, "/")[0]`. -/
def fileTopPath (f : String) : String :=
  (Split f '/').headD ""

/-- One turn of the first loop of the `showFinished` case. -/
def countStep (topLevelFileChildren : GoMap) (f : String) : GoMap :=
  let fileTopPath := fileTopPath f
  let (subfileCount, wasPresent) := topLevelFileChildren.get fileTopPath
  if wasPresent then topLevelFileChildren.set fileTopPath (subfileCount + 1)
  else topLevelFileChildren.set fileTopPath 0

/-- The map `topLevelFileChildren` after the first loop. -/
def topLevelFileChildren (receivedFiles : List String) : GoMap :=
  receivedFiles.foldl countStep []

/-- Body of the second loop: the text shown for one map entry. -/
def formattedFileName (fileName : String) (subFileCount : Nat) : String :=
  if subFileCount > 0 then fileName ++ " (" ++ toString subFileCount ++ " subfiles)"
  else fileName

/-- The slice `topLevelFilesText` after `sort.Strings`. Go ranges over a map in
an unspecified order; the entries are taken here in the order of the
association list, and sorting yields the same slice for every order. -/
def topLevelFilesText (receivedFiles : List String) : List String :=
  sortStrings ((topLevelFileChildren receivedFiles).map
    (fun e => formattedFileName e.1 e.2))

/-- The string `finishedText` of the `showFinished` case. -/
def finishedText (D : Deps) (m : receiverUIModel D) : String :=
  let payloadSize := D.BoldText (D.ByteCountSI m.payloadSize)
  let indentedWrappedFiles :=
    D.indent ("Received: " ++
      D.wordwrap (D.ItalicText (Join (topLevelFilesText m.receivedFiles) ", ")) D.MAX_WIDTH)
      D.PADDING
  "File transfer completed! Received " ++ toString m.receivedFiles.length ++
    " files (" ++ payloadSize ++ " decompressed)\n\n" ++ indentedWrappedFiles

/-- The method `receiverUIModel.View`. -/
def View (D : Deps) (m : receiverUIModel D) : String :=
  let pad := Repeat " " D.PADDING
  let quitCommandsHelp :=
    D.HelpStyle ("(any of [" ++ Join D.QuitKeys ", " ++ "] to abort)")
  if m.state = showEstablishing then
    "\n" ++
      pad ++ D.InfoStyle (D.spinnerView m.spinner ++ " Establishing connection with sender")
      ++ "\n\n"
  else if m.state = showReceivingProgress then
    let payloadSize := D.BoldText (D.ByteCountSI m.payloadSize)
    let receivingText := "Receiving files (total size " ++ payloadSize ++ ")"
    "\n" ++
      pad ++ D.InfoStyle receivingText ++ "\n\n" ++
      pad ++ D.progressView m.progressBar ++ "\n\n" ++
      pad ++ quitCommandsHelp ++ "\n\n"
  else if m.state = showFinished then
    "\n" ++
      pad ++ D.InfoStyle (finishedText D m) ++ "\n\n" ++
      pad ++ D.progressView m.progressBar ++ "\n\n" ++
      pad ++ quitCommandsHelp ++ "\n\n"
  else if m.state = showError then
    m.errorMessage
  else
    ""

/-! ## A concrete instance, for evaluating the definitions -/

/-- Sample dependencies: plain natural numbers for the widgets, identity
styles, and `ui`-like constants. -/
def sampleDeps : Deps where
  Spinner := Nat
  Bar := Nat
  WidgetCmd := Nat
  Key := String
  Frame := Unit
  Other := Unit
  F32 := Nat
  F64 := Nat
  toF64 := id
  one := 100
  PADDING := 2
  MAX_WIDTH := 80
  QuitKeys := ["ctrl+c", "q", "esc"]
  newSpinner := 0
  ProgressBar := ⟨40, 0⟩
  HelpStyle := id
  InfoStyle := id
  BoldText := id
  ItalicText := id
  ByteCountSI := fun b => toString b ++ " B"
  keyString := id
  ToLower := fun s => String.mk (s.data.map Char.toLower)
  SetPercent := fun b p => (⟨b.Width, p⟩, Cmd.widget 0)
  progressUpdate := fun b _ => (b, Cmd.nil)
  spinnerUpdate := fun s _ => (s + 1, Cmd.widget 1)
  spinnerView := fun s => toString s
  progressView := fun b => toString b.rest
  wordwrap := fun s _ => s
  indent := fun s n => Repeat " " n ++ s

/-- A sample model in a given state with given payload size. -/
def sampleModel (st : uiState) (size : Int) : receiverUIModel sampleDeps :=
  { NewReceiverUI sampleDeps with state := st, payloadSize := size }

/-- A second instance, for following the progress fraction: floating-point
numbers are rationals, the conversion is exact, and the bar keeps every
percentage handed to `SetPercent`, in the order of the calls. -/
def spyDeps : Deps where
  Spinner := Nat
  Bar := List ℚ
  WidgetCmd := Nat
  Key := String
  Frame := Unit
  Other := Unit
  F32 := ℚ
  F64 := ℚ
  toF64 := id
  one := 1
  PADDING := 2
  MAX_WIDTH := 80
  QuitKeys := ["ctrl+c", "q", "esc"]
  newSpinner := 0
  ProgressBar := ⟨40, []⟩
  HelpStyle := id
  InfoStyle := id
  BoldText := id
  ItalicText := id
  ByteCountSI := fun b => toString b ++ " B"
  keyString := id
  ToLower := fun s => String.mk (s.data.map Char.toLower)
  SetPercent := fun b p => (⟨b.Width, b.rest ++ [p]⟩, Cmd.widget 0)
  progressUpdate := fun b _ => (b, Cmd.nil)
  spinnerUpdate := fun s _ => (s + 1, Cmd.widget 1)
  spinnerView := fun s => toString s
  progressView := fun b => toString b.rest.length
  wordwrap := fun s _ => s
  indent := fun s n => Repeat " " n ++ s

/-! ## Facts about the library pieces -/

theorem strLE_total (a b : String) : strLE a b ∨ strLE b a :=
  le_total a.data b.data

theorem strLE_trans {a b c : String} (h₁ : strLE a b) (h₂ : strLE b c) : strLE a c :=
  le_trans (α := List Char) h₁ h₂

theorem sortStrings_sorted (l : List String) : (sortStrings l).Sorted strLE :=
  haveI : IsTotal String strLE := ⟨strLE_total⟩
  haveI : IsTrans String strLE := ⟨fun _ _ _ => strLE_trans⟩
  List.sorted_insertionSort strLE l

theorem sortStrings_perm (l : List String) : (sortStrings l).Perm l :=
  List.perm_insertionSort strLE l

theorem strLE_antisymm {a b : String} (h₁ : strLE a b) (h₂ : strLE b a) : a = b :=
  String.ext (le_antisymm (α := List Char) h₁ h₂)

/-- Sorting forgets the order of its input, so the order in which the map is
ranged over does not show in the sorted slice. -/
theorem sortStrings_eq_of_perm {l₁ l₂ : List String} (h : l₁.Perm l₂) :
    sortStrings l₁ = sortStrings l₂ :=
  haveI : IsAntisymm String strLE := ⟨fun _ _ => strLE_antisymm⟩
  List.eq_of_perm_of_sorted
    ((sortStrings_perm l₁).trans (h.trans (sortStrings_perm l₂).symm))
    (sortStrings_sorted l₁) (sortStrings_sorted l₂)

theorem splitChars_head (sep : Char) (cs : List Char) :
    (splitChars sep cs).head? = some (cs.takeWhile (fun c => c ≠ sep)) := by
  induction cs with
  | nil => rfl
  | cons c cs ih =>
    by_cases h : c = sep
    · simp [splitChars, h]
    · cases hs : splitChars sep cs with
      | nil => simp [hs] at ih
      | cons p ps =>
        simp [hs] at ih
        simp [splitChars, h, hs, ih]

/-- The top-level name of a path is its part before the first `/`. -/
theorem fileTopPath_eq (f : String) :
    fileTopPath f = String.mk (f.data.takeWhile (fun c => c ≠ '/')) := by
  unfold fileTopPath Split
  have h := splitChars_head '/' f.data
  cases hs : splitChars '/' f.data with
  | nil => simp [hs] at h
  | cons p ps =>
    simp [hs] at h
    simp [h]

/-! ## Facts about the map of top-level names -/

theorem GoMap.get_set (m : GoMap) (k k' : String) (v : Nat) :
    GoMap.get (GoMap.set m k v) k' = if k = k' then (v, true) else GoMap.get m k' := by
  induction m with
  | nil => simp [GoMap.set, GoMap.get]
  | cons e rest ih =>
    obtain ⟨a, b⟩ := e
    by_cases h : a = k
    · subst h
      by_cases h' : a = k' <;> simp [GoMap.set, GoMap.get, h']
    · by_cases h' : k = k'
      · subst h'
        simp [GoMap.set, GoMap.get, h, ih]
      · by_cases h'' : a = k'
        · subst h''
          simp [GoMap.set, GoMap.get, h, h']
        · simp [GoMap.set, GoMap.get, h, h', h'', ih]

theorem GoMap.keys_set (m : GoMap) (k : String) (v : Nat) (t : String) :
    t ∈ (GoMap.set m k v).map Prod.fst ↔ t = k ∨ t ∈ m.map Prod.fst := by
  induction m with
  | nil => simp [GoMap.set]
  | cons e rest ih =>
    obtain ⟨a, b⟩ := e
    by_cases h : a = k
    · subst h
      simp [GoMap.set]
    · simp only [GoMap.set, h, if_false, List.map_cons, List.mem_cons, ih]
      tauto

theorem GoMap.nodup_set (m : GoMap) (k : String) (v : Nat)
    (h : (m.map Prod.fst).Nodup) : ((GoMap.set m k v).map Prod.fst).Nodup := by
  induction m with
  | nil => simp [GoMap.set]
  | cons e rest ih =>
    obtain ⟨a, b⟩ := e
    simp only [List.map_cons, List.nodup_cons] at h
    by_cases hk : a = k
    · subst hk
      simpa [GoMap.set] using h
    · simp only [GoMap.set, hk, if_false, List.map_cons, List.nodup_cons]
      refine ⟨?_, ih h.2⟩
      intro hmem
      rcases (GoMap.keys_set rest k v a).1 hmem with h1 | h1
      · exact hk h1
      · exact h.1 h1

theorem GoMap.get_of_mem (m : GoMap) (h : (m.map Prod.fst).Nodup) (t : String) (c : Nat)
    (hm : (t, c) ∈ m) : GoMap.get m t = (c, true) := by
  induction m with
  | nil => simp at hm
  | cons e rest ih =>
    obtain ⟨a, b⟩ := e
    simp only [List.map_cons, List.nodup_cons] at h
    rcases List.mem_cons.1 hm with h1 | h1
    · cases h1
      simp [GoMap.get]
    · have hne : a ≠ t := by
        intro hat
        subst hat
        exact h.1 (List.mem_map_of_mem Prod.fst h1)
      simp [GoMap.get, hne, ih h.2 h1]

theorem GoMap.get_absent (m : GoMap) (t : String) (h : t ∉ m.map Prod.fst) :
    GoMap.get m t = (0, false) := by
  induction m with
  | nil => rfl
  | cons e rest ih =>
    obtain ⟨a, b⟩ := e
    simp only [List.map_cons, List.mem_cons, not_or] at h
    have hne : a ≠ t := fun hat => h.1 hat.symm
    simp [GoMap.get, hne, ih h.2]

theorem countStep_keys (m : GoMap) (f t : String) :
    t ∈ (countStep m f).map Prod.fst ↔ t = fileTopPath f ∨ t ∈ m.map Prod.fst := by
  unfold countStep
  cases hg : GoMap.get m (fileTopPath f) with
  | mk c p =>
    cases p
    · simpa [hg] using GoMap.keys_set m (fileTopPath f) 0 t
    · simpa [hg] using GoMap.keys_set m (fileTopPath f) (c + 1) t

theorem countStep_nodup (m : GoMap) (f : String) (h : (m.map Prod.fst).Nodup) :
    ((countStep m f).map Prod.fst).Nodup := by
  unfold countStep
  cases hg : GoMap.get m (fileTopPath f) with
  | mk c p => cases p <;> simp [hg, GoMap.nodup_set _ _ _ h]

theorem countStep_get (m : GoMap) (f t : String) :
    GoMap.get (countStep m f) t =
      if fileTopPath f = t then
        (if (GoMap.get m t).2 then ((GoMap.get m t).1 + 1, true) else (0, true))
      else GoMap.get m t := by
  unfold countStep
  by_cases h : fileTopPath f = t
  · subst h
    cases hg : GoMap.get m (fileTopPath f) with
    | mk c p => cases p <;> simp [hg, GoMap.get_set]
  · cases hg : GoMap.get m (fileTopPath f) with
    | mk c p => cases p <;> simp [hg, GoMap.get_set, h]

theorem foldl_countStep_keys (files : List String) (m : GoMap) (t : String) :
    t ∈ (files.foldl countStep m).map Prod.fst ↔
      t ∈ files.map fileTopPath ∨ t ∈ m.map Prod.fst := by
  induction files generalizing m with
  | nil => simp
  | cons f fs ih =>
    rw [List.foldl_cons, ih, countStep_keys, List.map_cons, List.mem_cons]
    tauto

theorem foldl_countStep_nodup (files : List String) (m : GoMap)
    (h : (m.map Prod.fst).Nodup) : ((files.foldl countStep m).map Prod.fst).Nodup := by
  induction files generalizing m with
  | nil => simpa using h
  | cons f fs ih =>
    rw [List.foldl_cons]
    exact ih _ (countStep_nodup m f h)

theorem foldl_countStep_get (files : List String) (m : GoMap) (t : String) :
    GoMap.get (files.foldl countStep m) t =
      if (files.map fileTopPath).count t = 0 then GoMap.get m t
      else if (GoMap.get m t).2 then
        ((GoMap.get m t).1 + (files.map fileTopPath).count t, true)
      else ((files.map fileTopPath).count t - 1, true) := by
  induction files generalizing m with
  | nil => simp
  | cons f fs ih =>
    rw [List.foldl_cons, ih, countStep_get, List.map_cons, List.count_cons]
    by_cases hf : fileTopPath f = t
    · subst hf
      cases hg : GoMap.get m (fileTopPath f) with
      | mk c p =>
        cases p
        · by_cases h0 : List.count (fileTopPath f) (List.map fileTopPath fs) = 0
          · simp [h0]
          · simp [h0]
        · by_cases h0 : List.count (fileTopPath f) (List.map fileTopPath fs) = 0
          · simp [h0]
          · simp [h0]
            omega
    · simp [hf]

/-- What the first loop leaves in the map: a name seen `n ≥ 1` times holds
`n - 1`, a name never seen is absent. -/
theorem topLevelFileChildren_get (files : List String) (t : String) :
    GoMap.get (topLevelFileChildren files) t =
      if (files.map fileTopPath).count t = 0 then (0, false)
      else ((files.map fileTopPath).count t - 1, true) := by
  unfold topLevelFileChildren
  rw [foldl_countStep_get]
  simp [GoMap.get]

theorem topLevelFileChildren_nodup (files : List String) :
    ((topLevelFileChildren files).map Prod.fst).Nodup :=
  foldl_countStep_nodup files [] (by simp)

theorem topLevelFileChildren_keys (files : List String) (t : String) :
    t ∈ (topLevelFileChildren files).map Prod.fst ↔ t ∈ files.map fileTopPath := by
  unfold topLevelFileChildren
  rw [foldl_countStep_keys]
  simp

theorem topLevelFileChildren_value (files : List String) (t : String) (c : Nat)
    (h : (t, c) ∈ topLevelFileChildren files) :
    c = (files.map fileTopPath).count t - 1 := by
  have h1 := GoMap.get_of_mem _ (topLevelFileChildren_nodup files) t c h
  rw [topLevelFileChildren_get] at h1
  by_cases h0 : (files.map fileTopPath).count t = 0
  · simp [h0] at h1
  · simp [h0] at h1
    omega

/-- Whatever order the second loop visits the map entries in, the sorted slice
is the one computed by `topLevelFilesText`. -/
theorem topLevelFilesText_any_order (files : List String) (entries : GoMap)
    (h : entries.Perm (topLevelFileChildren files)) :
    sortStrings (entries.map (fun e => formattedFileName e.1 e.2)) =
      topLevelFilesText files :=
  sortStrings_eq_of_perm (h.map _)

theorem topLevelFileChildren_keys_perm (files : List String) :
    ((topLevelFileChildren files).map Prod.fst).Perm (files.map fileTopPath).dedup := by
  refine (List.perm_ext_iff_of_nodup (topLevelFileChildren_nodup files)
    (List.nodup_dedup _)).2 (fun t => ?_)
  rw [topLevelFileChildren_keys, List.mem_dedup]

/-- Up to order, the sorted slice holds one entry for each distinct top-level
name, written from the number of paths under that name. -/
theorem topLevelFilesText_perm (files : List String) :
    (topLevelFilesText files).Perm
      ((files.map fileTopPath).dedup.map (fun t =>
        if (files.map fileTopPath).count t = 1 then t
        else t ++ " (" ++ toString ((files.map fileTopPath).count t - 1)
          ++ " subfiles)")) := by
  have hfmt : (topLevelFileChildren files).map (fun e => formattedFileName e.1 e.2) =
      ((topLevelFileChildren files).map Prod.fst).map (fun t =>
        if (files.map fileTopPath).count t = 1 then t
        else t ++ " (" ++ toString ((files.map fileTopPath).count t - 1)
          ++ " subfiles)") := by
    rw [List.map_map]
    refine List.map_congr_left (fun e he => ?_)
    obtain ⟨t, c⟩ := e
    have hc := topLevelFileChildren_value files t c he
    have hmem : t ∈ files.map fileTopPath :=
      (topLevelFileChildren_keys files t).1 (List.mem_map_of_mem Prod.fst he)
    have hpos : 0 < (files.map fileTopPath).count t := List.count_pos_iff.2 hmem
    simp only [Function.comp, formattedFileName]
    by_cases h1 : (files.map fileTopPath).count t = 1
    · have hc0 : c = 0 := by omega
      simp [h1, hc0]
    · have hcpos : c > 0 := by omega
      rw [if_pos hcpos, if_neg h1, ← hc]
  unfold topLevelFilesText
  rw [hfmt]
  exact (sortStrings_perm _).trans ((topLevelFileChildren_keys_perm files).map _)

theorem GoMap.sum_set (m : GoMap) (k : String) (v : Nat) :
    ((GoMap.set m k v).map (fun e => e.2 + 1)).sum +
        (if (GoMap.get m k).2 then (GoMap.get m k).1 + 1 else 0) =
      (m.map (fun e => e.2 + 1)).sum + (v + 1) := by
  induction m with
  | nil => simp [GoMap.set, GoMap.get]
  | cons e rest ih =>
    obtain ⟨a, b⟩ := e
    by_cases h : a = k
    · subst h
      simp [GoMap.set, GoMap.get]
      omega
    · simp only [GoMap.set, GoMap.get, h, if_false, List.map_cons, List.sum_cons]
      omega

theorem countStep_sum (m : GoMap) (f : String) :
    ((countStep m f).map (fun e => e.2 + 1)).sum = (m.map (fun e => e.2 + 1)).sum + 1 := by
  unfold countStep
  cases hg : GoMap.get m (fileTopPath f) with
  | mk c p =>
    cases p
    · have h := GoMap.sum_set m (fileTopPath f) 0
      simp only [hg, Bool.false_eq_true, if_false] at h ⊢
      omega
    · have h := GoMap.sum_set m (fileTopPath f) (c + 1)
      simp only [hg, if_true] at h ⊢
      omega

theorem foldl_countStep_sum (files : List String) (m : GoMap) :
    ((files.foldl countStep m).map (fun e => e.2 + 1)).sum =
      (m.map (fun e => e.2 + 1)).sum + files.length := by
  induction files generalizing m with
  | nil => simp
  | cons f fs ih =>
    rw [List.foldl_cons, ih, countStep_sum, List.length_cons]
    omega

/-! ## Facts about the reducer -/

theorem Contains_iff (s : List String) (str : String) :
    Contains s str = true ↔ str ∈ s := by
  unfold Contains
  induction s with
  | nil => simp
  | cons a s ih =>
    simp only [List.any_cons, Bool.or_eq_true, ih, List.mem_cons, beq_iff_eq]
    constructor
    · rintro (h | h)
      · exact Or.inl h.symm
      · exact Or.inr h
    · rintro (h | h)
      · exact Or.inl h.symm
      · exact Or.inr h

theorem run_append (D : Deps) (m : receiverUIModel D) (as bs : List (Msg D)) :
    run D m (as ++ bs) = run D (run D m as) bs := by
  induction as generalizing m with
  | nil => rfl
  | cons a as ih => simp [run, ih]

theorem Update_payloadSize_of_not_fileInfo (D : Deps) (m : receiverUIModel D) (e : Msg D)
    (h : e.isFileInfo = false) : (Update D m e).1.payloadSize = m.payloadSize := by
  cases e with
  | FileInfoMsg b => simp [Msg.isFileInfo] at h
  | KeyMsg key =>
    simp only [Update]
    split <;> rfl
  | _ => rfl

theorem run_payloadSize_of_no_fileInfo (D : Deps) (m : receiverUIModel D) (es : List (Msg D))
    (h : ∀ e ∈ es, e.isFileInfo = false) : (run D m es).payloadSize = m.payloadSize := by
  induction es generalizing m with
  | nil => rfl
  | cons e es ih =>
    rw [run, ih _ (fun x hx => h x (List.mem_cons_of_mem _ hx))]
    exact Update_payloadSize_of_not_fileInfo D m e (h e (List.mem_cons_self _ _))

/-! ## The claims -/

/-- C1, counterexample: a model in state `showFinished` holding payload size
1000 receives `ui.FileInfoMsg` with `Bytes = 5`; the model returned by `Update`
holds payload size 5, not 1000. -/
theorem terminal_stability_counterexample :
    (sampleModel showFinished 1000).state = showFinished ∧
    (Update sampleDeps (sampleModel showFinished 1000) (Msg.FileInfoMsg 5)).1.payloadSize = 5 ∧
    (Update sampleDeps (sampleModel showFinished 1000) (Msg.FileInfoMsg 5)).1.payloadSize
      ≠ (sampleModel showFinished 1000).payloadSize := by
  decide

/-- C1, as amended: for a model whose state is `showFinished` or `showError`,
a `ui.ProgressMsg` leaves `payloadSize`, `receivedFiles` and `errorMessage` as
they were, and a `ui.FileInfoMsg` leaves `receivedFiles` and `errorMessage` as
they were. -/
theorem terminal_stability (D : Deps) (m : receiverUIModel D)
    (_h : m.state = showFinished ∨ m.state = showError) :
    (∀ p : D.F32,
      (Update D m (Msg.ProgressMsg p)).1.payloadSize = m.payloadSize ∧
      (Update D m (Msg.ProgressMsg p)).1.receivedFiles = m.receivedFiles ∧
      (Update D m (Msg.ProgressMsg p)).1.errorMessage = m.errorMessage) ∧
    (∀ b : Int,
      (Update D m (Msg.FileInfoMsg b)).1.receivedFiles = m.receivedFiles ∧
      (Update D m (Msg.FileInfoMsg b)).1.errorMessage = m.errorMessage) :=
  ⟨fun _ => ⟨rfl, rfl, rfl⟩, fun _ => ⟨rfl, rfl⟩⟩

/-- Witness of C1 as amended, at a finished model with payload size 1000. -/
theorem terminal_stability_witness :
    ((sampleModel showFinished 1000).state = showFinished ∨
      (sampleModel showFinished 1000).state = showError) ∧
    (Update sampleDeps (sampleModel showFinished 1000)
      (Msg.ProgressMsg (7 : Nat))).1.payloadSize = 1000 ∧
    (Update sampleDeps (sampleModel showFinished 1000)
      (Msg.FileInfoMsg 5)).1.errorMessage = "" :=
  ⟨Or.inl rfl,
    ((terminal_stability sampleDeps (sampleModel showFinished 1000) (Or.inl rfl)).1
      (7 : Nat)).1,
    ((terminal_stability sampleDeps (sampleModel showFinished 1000) (Or.inl rfl)).2 5).2⟩

/-- C2, the code at the failing inputs: whatever the state of the model, also
`showError` or `showFinished`, `Update` answers a `ui.ProgressMsg` and a
`ui.FileInfoMsg` with a model in state `showReceivingProgress`; so the state
moves back from `showError` (3) and from `showFinished` (2) to
`showReceivingProgress` (1). -/
theorem Update_moves_back_to_receiving (D : Deps) (m : receiverUIModel D) :
    (∀ p : D.F32, (Update D m (Msg.ProgressMsg p)).1.state = showReceivingProgress) ∧
    (∀ b : Int, (Update D m (Msg.FileInfoMsg b)).1.state = showReceivingProgress) ∧
    (Update sampleDeps (sampleModel showError 0) (Msg.ProgressMsg (50 : Nat))).1.state
      = showReceivingProgress ∧
    (Update sampleDeps (sampleModel showFinished 0) (Msg.FileInfoMsg 7)).1.state
      = showReceivingProgress ∧
    showReceivingProgress < showFinished ∧ showFinished < showError :=
  ⟨fun _ => rfl, fun _ => rfl, rfl, rfl, by decide, by decide⟩

/-- C3: in state `showEstablishing`, a `ui.FileInfoMsg` with `Bytes = n` gives
state `showReceivingProgress` and `payloadSize = n`; `receivedFiles`,
`decompressedPayloadSize`, `errorMessage`, `spinner` and `progressBar` are
unchanged and the command is `nil`. -/
theorem Update_FileInfoMsg_establishing (D : Deps) (m : receiverUIModel D) (n : Int)
    (_h : m.state = showEstablishing) :
    (Update D m (Msg.FileInfoMsg n)).1.state = showReceivingProgress ∧
    (Update D m (Msg.FileInfoMsg n)).1.payloadSize = n ∧
    (Update D m (Msg.FileInfoMsg n)).1.receivedFiles = m.receivedFiles ∧
    (Update D m (Msg.FileInfoMsg n)).1.decompressedPayloadSize = m.decompressedPayloadSize ∧
    (Update D m (Msg.FileInfoMsg n)).1.errorMessage = m.errorMessage ∧
    (Update D m (Msg.FileInfoMsg n)).1.spinner = m.spinner ∧
    (Update D m (Msg.FileInfoMsg n)).1.progressBar = m.progressBar ∧
    (Update D m (Msg.FileInfoMsg n)).2 = Cmd.nil :=
  ⟨rfl, rfl, rfl, rfl, rfl, rfl, rfl, rfl⟩

/-- Witness of C3: the initial model receives `Bytes = 1048576`. -/
theorem Update_FileInfoMsg_establishing_witness :
    (NewReceiverUI sampleDeps).state = showEstablishing ∧
    (Update sampleDeps (NewReceiverUI sampleDeps) (Msg.FileInfoMsg 1048576)).1.state
      = showReceivingProgress ∧
    (Update sampleDeps (NewReceiverUI sampleDeps) (Msg.FileInfoMsg 1048576)).1.payloadSize
      = 1048576 :=
  ⟨rfl,
    (Update_FileInfoMsg_establishing sampleDeps (NewReceiverUI sampleDeps) 1048576 rfl).1,
    (Update_FileInfoMsg_establishing sampleDeps (NewReceiverUI sampleDeps) 1048576 rfl).2.1⟩

/-- C4: in a non-terminal state, `FinishedMsg{fs, d}` gives state
`showFinished`, `receivedFiles = fs`, `decompressedPayloadSize = d` and the
progress bar left by `SetPercent(1.0)` (with the command of that call), while
`payloadSize`, `errorMessage` and `spinner` are unchanged. -/
theorem Update_FinishedMsg_nonterminal (D : Deps) (m : receiverUIModel D)
    (fs : List String) (d : Int)
    (_h : m.state = showEstablishing ∨ m.state = showReceivingProgress) :
    (Update D m (Msg.FinishedMsg fs d)).1.state = showFinished ∧
    (Update D m (Msg.FinishedMsg fs d)).1.receivedFiles = fs ∧
    (Update D m (Msg.FinishedMsg fs d)).1.decompressedPayloadSize = d ∧
    (Update D m (Msg.FinishedMsg fs d)).1.progressBar = (D.SetPercent m.progressBar D.one).1 ∧
    (Update D m (Msg.FinishedMsg fs d)).2 = (D.SetPercent m.progressBar D.one).2 ∧
    (Update D m (Msg.FinishedMsg fs d)).1.payloadSize = m.payloadSize ∧
    (Update D m (Msg.FinishedMsg fs d)).1.errorMessage = m.errorMessage ∧
    (Update D m (Msg.FinishedMsg fs d)).1.spinner = m.spinner :=
  ⟨rfl, rfl, rfl, rfl, rfl, rfl, rfl, rfl⟩

/-- Witness of C4: a receiving model with payload size 1000 is told that three
files arrived; in the sample instance `SetPercent` stores the percentage as the
bar's hidden field, and `1.0` is the number 100. -/
theorem Update_FinishedMsg_nonterminal_witness :
    ((sampleModel showReceivingProgress 1000).state = showEstablishing ∨
      (sampleModel showReceivingProgress 1000).state = showReceivingProgress) ∧
    (Update sampleDeps (sampleModel showReceivingProgress 1000)
      (Msg.FinishedMsg ["a/b.txt", "a/c.txt", "d.txt"] 2000000)).1.state = showFinished ∧
    (Update sampleDeps (sampleModel showReceivingProgress 1000)
      (Msg.FinishedMsg ["a/b.txt", "a/c.txt", "d.txt"] 2000000)).1.progressBar.rest
        = (100 : Nat) :=
  ⟨Or.inr rfl,
    (Update_FinishedMsg_nonterminal sampleDeps (sampleModel showReceivingProgress 1000)
      ["a/b.txt", "a/c.txt", "d.txt"] 2000000 (Or.inr rfl)).1,
    congrArg ProgressModel.rest
      (Update_FinishedMsg_nonterminal sampleDeps (sampleModel showReceivingProgress 1000)
        ["a/b.txt", "a/c.txt", "d.txt"] 2000000 (Or.inr rfl)).2.2.2.1⟩

/-- C5: in a non-terminal state, `ui.ErrorMsg` with `Message = s` gives state
`showError` and `errorMessage = s`, and `View` of the returned model is exactly
`s`, for every string `s`. -/
theorem Update_ErrorMsg_view (D : Deps) (m : receiverUIModel D) (s : String)
    (_h : m.state = showEstablishing ∨ m.state = showReceivingProgress) :
    (Update D m (Msg.ErrorMsg s)).1.state = showError ∧
    (Update D m (Msg.ErrorMsg s)).1.errorMessage = s ∧
    View D (Update D m (Msg.ErrorMsg s)).1 = s := by
  refine ⟨rfl, rfl, ?_⟩
  simp [View, Update]

/-- Witness of C5: "connection reset" arrives at the initial model. -/
theorem Update_ErrorMsg_view_witness :
    ((NewReceiverUI sampleDeps).state = showEstablishing ∨
      (NewReceiverUI sampleDeps).state = showReceivingProgress) ∧
    View sampleDeps (Update sampleDeps (NewReceiverUI sampleDeps)
      (Msg.ErrorMsg "connection reset")).1 = "connection reset" :=
  ⟨Or.inl rfl,
    (Update_ErrorMsg_view sampleDeps (NewReceiverUI sampleDeps) "connection reset"
      (Or.inl rfl)).2.2⟩

/-- C6: up to order, the entries built by the `showFinished` view are one
entry for each distinct top-level name `t` of `receivedFiles` and nothing else:
the bare `t` when it is the top-level name of one path, and
`t (k-1 subfiles)` when it is the top-level name of `k ≥ 2` paths. The
top-level name is the part of the path before its first `/`, and
`a/b.txt, a/c.txt, d.txt` gives `a (1 subfiles)` and `d.txt`. -/
theorem View_topLevel_entries (receivedFiles : List String) :
    (topLevelFilesText receivedFiles).Perm
      ((receivedFiles.map fileTopPath).dedup.map (fun t =>
        if (receivedFiles.map fileTopPath).count t = 1 then t
        else t ++ " (" ++ toString ((receivedFiles.map fileTopPath).count t - 1)
          ++ " subfiles)")) ∧
    (∀ f : String, fileTopPath f = String.mk (f.data.takeWhile (fun c => c ≠ '/'))) ∧
    topLevelFilesText ["a/b.txt", "a/c.txt", "d.txt"] = ["a (1 subfiles)", "d.txt"] := by
  exact ⟨topLevelFilesText_perm receivedFiles, fileTopPath_eq, by decide⟩

/-- C7, counterexample: for the paths `a/x`, `a/y` and `a #1` the map holds the
names `a` (one subfile) and `a #1`; the entry of `a #1` is displayed before the
entry of `a`, although the name `a #1` is not less than or equal to `a`. -/
theorem View_name_order_counterexample :
    topLevelFileChildren ["a/x", "a/y", "a #1"] = [("a", 1), ("a #1", 0)] ∧
    topLevelFilesText ["a/x", "a/y", "a #1"] =
      [formattedFileName "a #1" 0, formattedFileName "a" 1] ∧
    ¬ strLE "a #1" "a" := by
  decide

/-- C7, as amended: the displayed entries are in increasing order of their
displayed text: whenever entry `X` stands before entry `Y` in the list, the
string `X` is byte-wise less than or equal to the string `Y`. -/
theorem View_entries_sorted (receivedFiles : List String) :
    List.Pairwise strLE (topLevelFilesText receivedFiles) :=
  sortStrings_sorted _

/-- C8, the code at the failing input: the view never reads
`decompressedPayloadSize`; a model that was receiving 1000 bytes and is told
that 2000000 decompressed bytes arrived shows the figure of 1000 in front of
the word `decompressed`. -/
theorem View_shows_payloadSize_as_decompressed :
    (∀ (D : Deps) (m : receiverUIModel D) (d : Int),
      View D { m with decompressedPayloadSize := d } = View D m) ∧
    (Update sampleDeps (sampleModel showReceivingProgress 1000)
      (Msg.FinishedMsg ["a/b.txt", "a/c.txt", "d.txt"] 2000000)).1.decompressedPayloadSize
        = 2000000 ∧
    finishedText sampleDeps (Update sampleDeps (sampleModel showReceivingProgress 1000)
      (Msg.FinishedMsg ["a/b.txt", "a/c.txt", "d.txt"] 2000000)).1 =
      "File transfer completed! Received 3 files (1000 B decompressed)\n\n" ++
        "  Received: a (1 subfiles), d.txt" ∧
    sampleDeps.ByteCountSI 2000000 = "2000000 B" :=
  ⟨fun _ _ _ => rfl, rfl, by decide, by decide⟩

/-- C9, counterexample: from the initial model, `ui.FileInfoMsg` with
`Bytes = 1` followed by `ui.FileInfoMsg` with `Bytes = 2` leaves
`payloadSize = 2`, not the value 1 of the first message. -/
theorem payloadSize_set_once_counterexample :
    (run sampleDeps (NewReceiverUI sampleDeps)
      [Msg.FileInfoMsg 1]).payloadSize = 1 ∧
    (run sampleDeps (NewReceiverUI sampleDeps)
      [Msg.FileInfoMsg 1, Msg.FileInfoMsg 2]).payloadSize = 2 ∧
    (run sampleDeps (NewReceiverUI sampleDeps)
      [Msg.FileInfoMsg 1, Msg.FileInfoMsg 2]).payloadSize ≠ 1 := by
  decide

/-- C9, as amended: `payloadSize` holds the `Bytes` of the latest
`ui.FileInfoMsg`: after any events, a `ui.FileInfoMsg` with `Bytes = b` and
then any events none of which is a `ui.FileInfoMsg`, `payloadSize` is `b`. -/
theorem payloadSize_latest_FileInfoMsg (D : Deps) (m : receiverUIModel D)
    (pre post : List (Msg D)) (b : Int) (h : ∀ e ∈ post, e.isFileInfo = false) :
    (run D m (pre ++ Msg.FileInfoMsg b :: post)).payloadSize = b := by
  rw [run_append, run, run_payloadSize_of_no_fileInfo D _ post h]
  rfl

/-- Witness of C9 as amended: two `ui.FileInfoMsg`, then progress and
completion; the size of the second one stays. -/
theorem payloadSize_latest_FileInfoMsg_witness :
    (∀ e ∈ ([Msg.ProgressMsg (50 : Nat), Msg.FinishedMsg ["d.txt"] 9] : List (Msg sampleDeps)),
      e.isFileInfo = false) ∧
    (run sampleDeps (NewReceiverUI sampleDeps)
      ([Msg.FileInfoMsg 1] ++ Msg.FileInfoMsg 2 ::
        [Msg.ProgressMsg (50 : Nat), Msg.FinishedMsg ["d.txt"] 9])).payloadSize = 2 :=
  ⟨by simp [Msg.isFileInfo],
    payloadSize_latest_FileInfoMsg sampleDeps (NewReceiverUI sampleDeps)
      [Msg.FileInfoMsg 1] [Msg.ProgressMsg (50 : Nat), Msg.FinishedMsg ["d.txt"] 9] 2
      (by simp [Msg.isFileInfo])⟩

/-- C10: on a `tea.KeyMsg`, `Update` returns the model as it was, in every
field; the command is `tea.Quit` when the lower-cased key string is an element
of `ui.QuitKeys` and `nil` when it is not. -/
theorem Update_KeyMsg (D : Deps) (m : receiverUIModel D) (key : D.Key) :
    Update D m (Msg.KeyMsg key) =
      (m, if D.ToLower (D.keyString key) ∈ D.QuitKeys then Cmd.Quit else Cmd.nil) := by
  by_cases h : D.ToLower (D.keyString key) ∈ D.QuitKeys
  · simp [Update, h, (Contains_iff _ _).2 h]
  · have hc : ¬ Contains D.QuitKeys (D.ToLower (D.keyString key)) = true :=
      fun hc => h ((Contains_iff _ _).1 hc)
    simp [Update, h, hc]

/-! ## Resize, animation and the empty finished view -/

theorem wrapInt_of_range (x : Int) (h₁ : -2 ^ 63 ≤ x) (h₂ : x < 2 ^ 63) : wrapInt x = x := by
  unfold wrapInt
  omega

/-- C11: on a `tea.WindowSizeMsg` with `Width = w` the returned model has
`progressBar.Width = min(w - 2*ui.PADDING - 4, ui.MAX_WIDTH)`, the subtraction
being that of Go `int`, so the width is never greater than `ui.MAX_WIDTH`; for
every `w` whose subtraction stays inside the `int` range this is the minimum
in exact arithmetic. The rest of the bar, `state`, `payloadSize`,
`receivedFiles`, `decompressedPayloadSize`, `errorMessage` and `spinner` are
unchanged and the command is `nil`. -/
theorem Update_WindowSizeMsg (D : Deps) (m : receiverUIModel D) (w : Int) :
    (Update D m (Msg.WindowSizeMsg w)).1.progressBar.Width =
      min (wrapInt (wrapInt (w - 2 * (D.PADDING : Int)) - 4)) D.MAX_WIDTH ∧
    (Update D m (Msg.WindowSizeMsg w)).1.progressBar.Width ≤ D.MAX_WIDTH ∧
    (-2 ^ 63 ≤ w - 2 * (D.PADDING : Int) - 4 → w < 2 ^ 63 →
      (Update D m (Msg.WindowSizeMsg w)).1.progressBar.Width =
        min (w - 2 * (D.PADDING : Int) - 4) D.MAX_WIDTH) ∧
    (Update D m (Msg.WindowSizeMsg w)).1.progressBar.rest = m.progressBar.rest ∧
    (Update D m (Msg.WindowSizeMsg w)).1.state = m.state ∧
    (Update D m (Msg.WindowSizeMsg w)).1.payloadSize = m.payloadSize ∧
    (Update D m (Msg.WindowSizeMsg w)).1.receivedFiles = m.receivedFiles ∧
    (Update D m (Msg.WindowSizeMsg w)).1.decompressedPayloadSize = m.decompressedPayloadSize ∧
    (Update D m (Msg.WindowSizeMsg w)).1.errorMessage = m.errorMessage ∧
    (Update D m (Msg.WindowSizeMsg w)).1.spinner = m.spinner ∧
    (Update D m (Msg.WindowSizeMsg w)).2 = Cmd.nil := by
  have hw : (Update D m (Msg.WindowSizeMsg w)).1.progressBar.Width =
      min (wrapInt (wrapInt (w - 2 * (D.PADDING : Int)) - 4)) D.MAX_WIDTH := by
    simp only [Update]
    split <;> omega
  refine ⟨hw, ?_, ?_, rfl, rfl, rfl, rfl, rfl, rfl, rfl, rfl⟩
  · rw [hw]
    exact min_le_right _ _
  · intro h₁ h₂
    rw [hw, wrapInt_of_range (w - 2 * (D.PADDING : Int)) (by omega) (by omega),
      wrapInt_of_range _ h₁ (by omega)]

/-- Witness of C11: with padding 2 and maximal width 80, a window 50 wide
gives a bar 42 wide and a window 200 wide gives a bar 80 wide. -/
theorem Update_WindowSizeMsg_witness :
    (-2 ^ 63 ≤ (50 : Int) - 2 * (sampleDeps.PADDING : Int) - 4) ∧ ((50 : Int) < 2 ^ 63) ∧
    (Update sampleDeps (NewReceiverUI sampleDeps) (Msg.WindowSizeMsg 50)).1.progressBar.Width
      = min ((50 : Int) - 2 * (sampleDeps.PADDING : Int) - 4) sampleDeps.MAX_WIDTH ∧
    (Update sampleDeps (NewReceiverUI sampleDeps) (Msg.WindowSizeMsg 50)).1.progressBar.Width
      = 42 ∧
    (Update sampleDeps (NewReceiverUI sampleDeps) (Msg.WindowSizeMsg 200)).1.progressBar.Width
      = 80 :=
  ⟨by decide, by decide,
    (Update_WindowSizeMsg sampleDeps (NewReceiverUI sampleDeps) 50).2.2.1
      (by decide) (by decide),
    by decide, by decide⟩

/-- C12: a `progress.FrameMsg` and every message of the `default` branch leave
`state`, `payloadSize`, `receivedFiles`, `decompressedPayloadSize` and
`errorMessage` as they were; the frame message changes at most `progressBar`
(the spinner is kept) and the default branch changes at most `spinner` (the
progress bar is kept). -/
theorem Update_animation_tick (D : Deps) (m : receiverUIModel D) :
    (∀ frame : D.Frame,
      (Update D m (Msg.FrameMsg frame)).1 =
        { m with progressBar := (D.progressUpdate m.progressBar frame).1 } ∧
      (Update D m (Msg.FrameMsg frame)).1.state = m.state ∧
      (Update D m (Msg.FrameMsg frame)).1.payloadSize = m.payloadSize ∧
      (Update D m (Msg.FrameMsg frame)).1.receivedFiles = m.receivedFiles ∧
      (Update D m (Msg.FrameMsg frame)).1.decompressedPayloadSize
        = m.decompressedPayloadSize ∧
      (Update D m (Msg.FrameMsg frame)).1.errorMessage = m.errorMessage ∧
      (Update D m (Msg.FrameMsg frame)).1.spinner = m.spinner) ∧
    (∀ x : D.Other,
      (Update D m (Msg.other x)).1 = { m with spinner := (D.spinnerUpdate m.spinner x).1 } ∧
      (Update D m (Msg.other x)).1.state = m.state ∧
      (Update D m (Msg.other x)).1.payloadSize = m.payloadSize ∧
      (Update D m (Msg.other x)).1.receivedFiles = m.receivedFiles ∧
      (Update D m (Msg.other x)).1.decompressedPayloadSize = m.decompressedPayloadSize ∧
      (Update D m (Msg.other x)).1.errorMessage = m.errorMessage ∧
      (Update D m (Msg.other x)).1.progressBar = m.progressBar) :=
  ⟨fun _ => ⟨rfl, rfl, rfl, rfl, rfl, rfl, rfl⟩, fun _ => ⟨rfl, rfl, rfl, rfl, rfl, rfl, rfl⟩⟩

/-- C13: for a model in state `showFinished` with no received files, `View`
still returns the finished text: the count reads `Received 0 files`, the list
of top-level entries is empty and the text handed to the wrapper after
`Received: ` is the style applied to the empty string. -/
theorem View_finished_empty (D : Deps) (m : receiverUIModel D)
    (hs : m.state = showFinished) (hf : m.receivedFiles = []) :
    topLevelFilesText m.receivedFiles = [] ∧
    Join (topLevelFilesText m.receivedFiles) ", " = "" ∧
    finishedText D m =
      "File transfer completed! Received 0 files (" ++
        D.BoldText (D.ByteCountSI m.payloadSize) ++ " decompressed)\n\n" ++
        D.indent ("Received: " ++ D.wordwrap (D.ItalicText "") D.MAX_WIDTH) D.PADDING ∧
    View D m =
      "\n" ++
        Repeat " " D.PADDING ++ D.InfoStyle (finishedText D m) ++ "\n\n" ++
        Repeat " " D.PADDING ++ D.progressView m.progressBar ++ "\n\n" ++
        Repeat " " D.PADDING ++
          D.HelpStyle ("(any of [" ++ Join D.QuitKeys ", " ++ "] to abort)") ++ "\n\n" := by
  have h0 : topLevelFilesText m.receivedFiles = [] := by rw [hf]; rfl
  refine ⟨h0, by rw [h0]; rfl, ?_, ?_⟩
  · unfold finishedText
    rw [h0, hf]
    rfl
  · simp [View, hs]

/-- Witness of C13: the finished sample model without files, payload size 0. -/
theorem View_finished_empty_witness :
    (sampleModel showFinished 0).state = showFinished ∧
    (sampleModel showFinished 0).receivedFiles = [] ∧
    finishedText sampleDeps (sampleModel showFinished 0) =
      "File transfer completed! Received 0 files (0 B decompressed)\n\n  Received: " :=
  ⟨rfl, rfl,
    (View_finished_empty sampleDeps (sampleModel showFinished 0) rfl rfl).2.2.1.trans
      (by decide)⟩

/-! ## Counting and reordering the received files -/

/-- C17: in the map built by the `showFinished` view, the stored subfile
counts plus one for each name add up to `len(receivedFiles)`, the number
printed after `Received`; so the stored counts add up to the number of files
minus the number of distinct top-level names, which is the number of map
entries. -/
theorem View_file_count_conservation (receivedFiles : List String) :
    ((topLevelFileChildren receivedFiles).map (fun e => e.2 + 1)).sum
      = receivedFiles.length ∧
    ((topLevelFileChildren receivedFiles).map Prod.snd).sum
      + (receivedFiles.map fileTopPath).dedup.length = receivedFiles.length ∧
    ((topLevelFileChildren receivedFiles).map Prod.snd).sum
      = receivedFiles.length - (receivedFiles.map fileTopPath).dedup.length ∧
    (topLevelFileChildren receivedFiles).length
      = (receivedFiles.map fileTopPath).dedup.length := by
  have hsum : ((topLevelFileChildren receivedFiles).map (fun e => e.2 + 1)).sum
      = receivedFiles.length := by
    unfold topLevelFileChildren
    rw [foldl_countStep_sum]
    simp
  have hlen : (topLevelFileChildren receivedFiles).length
      = (receivedFiles.map fileTopPath).dedup.length := by
    have h := (topLevelFileChildren_keys_perm receivedFiles).length_eq
    simpa using h
  have hsplit : ((topLevelFileChildren receivedFiles).map (fun e => e.2 + 1)).sum =
      ((topLevelFileChildren receivedFiles).map Prod.snd).sum
        + (topLevelFileChildren receivedFiles).length := by
    generalize topLevelFileChildren receivedFiles = l
    induction l with
    | nil => rfl
    | cons e l ih =>
      simp only [List.map_cons, List.sum_cons, List.length_cons, ih]
      omega
  refine ⟨hsum, ?_, ?_, hlen⟩ <;> omega

/-- C18: when two lists of paths are permutations of each other, the sorted
list of formatted top-level entries is the same, and so is the text `View`
returns for two models that differ in nothing else; the order in which the map
entries are visited does not show either. -/
theorem View_order_independent (fs₁ fs₂ : List String) (h : fs₁.Perm fs₂) :
    topLevelFilesText fs₁ = topLevelFilesText fs₂ ∧
    (∀ (D : Deps) (m : receiverUIModel D),
      View D { m with receivedFiles := fs₁ } = View D { m with receivedFiles := fs₂ }) ∧
    (∀ entries : GoMap, entries.Perm (topLevelFileChildren fs₁) →
      sortStrings (entries.map (fun e => formattedFileName e.1 e.2)) =
        topLevelFilesText fs₂) := by
  have htops : (fs₁.map fileTopPath).Perm (fs₂.map fileTopPath) := h.map _
  have hfun : (fun t : String =>
        if (fs₁.map fileTopPath).count t = 1 then t
        else t ++ " (" ++ toString ((fs₁.map fileTopPath).count t - 1) ++ " subfiles)") =
      (fun t : String =>
        if (fs₂.map fileTopPath).count t = 1 then t
        else t ++ " (" ++ toString ((fs₂.map fileTopPath).count t - 1) ++ " subfiles)") := by
    funext t
    rw [htops.count_eq t]
  have hperm : (topLevelFilesText fs₁).Perm (topLevelFilesText fs₂) := by
    refine (topLevelFilesText_perm fs₁).trans (List.Perm.trans ?_ (topLevelFilesText_perm fs₂).symm)
    rw [hfun]
    exact htops.dedup.map _
  have htext : topLevelFilesText fs₁ = topLevelFilesText fs₂ := by
    haveI : IsAntisymm String strLE := ⟨fun _ _ => strLE_antisymm⟩
    exact List.eq_of_perm_of_sorted hperm (sortStrings_sorted _) (sortStrings_sorted _)
  refine ⟨htext, ?_, ?_⟩
  · intro D m
    simp only [View, finishedText, htext, h.length_eq]
  · intro entries he
    rw [topLevelFilesText_any_order fs₁ entries he, htext]

/-- Witness of C18: three paths in two orders give the same entries and the
same finished text. -/
theorem View_order_independent_witness :
    ["a/b.txt", "d.txt", "a/c.txt"].Perm ["d.txt", "a/c.txt", "a/b.txt"] ∧
    topLevelFilesText ["a/b.txt", "d.txt", "a/c.txt"] = ["a (1 subfiles)", "d.txt"] ∧
    topLevelFilesText ["a/b.txt", "d.txt", "a/c.txt"]
      = topLevelFilesText ["d.txt", "a/c.txt", "a/b.txt"] :=
  ⟨by decide, by decide,
    (View_order_independent ["a/b.txt", "d.txt", "a/c.txt"] ["d.txt", "a/c.txt", "a/b.txt"]
      (by decide)).1⟩

/-! ## Distinct entries and quit keys -/

theorem digitChar_ne_paren (n : Nat) : Nat.digitChar (n % 10) ≠ '(' := by
  have h : n % 10 < 10 := Nat.mod_lt _ (by decide)
  generalize n % 10 = d at h
  interval_cases d <;> decide

theorem toDigitsCore_no_paren (fuel n : Nat) (ds : List Char) (h : '(' ∉ ds) :
    '(' ∉ Nat.toDigitsCore 10 fuel n ds := by
  induction fuel generalizing n ds with
  | zero => simpa [Nat.toDigitsCore] using h
  | succ fuel ih =>
    have hd : '(' ∉ Nat.digitChar (n % 10) :: ds := by
      intro hm
      rcases List.mem_cons.1 hm with h1 | h1
      · exact digitChar_ne_paren _ h1.symm
      · exact h h1
    simp only [Nat.toDigitsCore]
    split
    · exact hd
    · exact ih _ _ hd

/-- The decimal text of a count, as `%d` prints it, holds no parenthesis. -/
theorem toString_no_paren (n : Nat) : '(' ∉ (toString n).data := by
  show '(' ∉ (Nat.repr n).data
  unfold Nat.repr Nat.toDigits
  simpa [List.asString] using toDigitsCore_no_paren (n + 1) n [] (by simp)

theorem annotation_cancel (t₁ t₂ d₁ d₂ : List Char) (h₁ : '(' ∉ d₁) (h₂ : '(' ∉ d₂)
    (h : t₁ ++ ' ' :: '(' :: d₁ = t₂ ++ ' ' :: '(' :: d₂) : t₁ = t₂ := by
  induction t₁ generalizing t₂ with
  | nil =>
    cases t₂ with
    | nil => rfl
    | cons c cs =>
      exfalso
      simp only [List.nil_append, List.cons_append, List.cons.injEq] at h
      obtain ⟨_, h⟩ := h
      cases cs with
      | nil => simp at h
      | cons c' cs' =>
        simp only [List.cons_append, List.cons.injEq] at h
        apply h₁
        rw [h.2]
        simp
  | cons a as ih =>
    cases t₂ with
    | nil =>
      exfalso
      simp only [List.nil_append, List.cons_append, List.cons.injEq] at h
      obtain ⟨_, h⟩ := h
      cases as with
      | nil => simp at h
      | cons c' cs' =>
        simp only [List.cons_append, List.cons.injEq] at h
        apply h₂
        rw [← h.2]
        simp
    | cons c cs =>
      simp only [List.cons_append, List.cons.injEq] at h
      rw [h.1, ih cs h.2]

/-- Two annotated entries that are the same string belong to the same name. -/
theorem annotated_entry_injective (t₁ t₂ : String) (a b : Nat)
    (h : t₁ ++ " (" ++ toString a ++ " subfiles)" = t₂ ++ " (" ++ toString b ++ " subfiles)") :
    t₁ = t₂ := by
  have hd := congrArg String.data h
  simp only [String.data_append] at hd
  have hc := List.append_cancel_right hd
  rw [List.append_assoc, List.append_assoc] at hc
  exact String.ext (annotation_cancel t₁.data t₂.data _ _
    (toString_no_paren a) (toString_no_paren b) hc)

/-- C19, counterexample: for the paths `a/x`, `a/y` and `a (1 subfiles)` the
map holds two different names, `a` with one subfile and `a (1 subfiles)`, whose
entries are the same string, so the sorted list holds that string twice. -/
theorem View_entries_distinct_counterexample :
    topLevelFileChildren ["a/x", "a/y", "a (1 subfiles)"]
      = [("a", 1), ("a (1 subfiles)", 0)] ∧
    topLevelFilesText ["a/x", "a/y", "a (1 subfiles)"]
      = ["a (1 subfiles)", "a (1 subfiles)"] ∧
    ¬ (topLevelFilesText ["a/x", "a/y", "a (1 subfiles)"]).Nodup := by
  decide

/-- C19, as amended: the formatted entries are pairwise distinct strings
whenever no top-level name that stands for one path is itself the annotated
entry `u (k-1 subfiles)` of a top-level name `u` that stands for `k ≥ 2`
paths. -/
theorem View_entries_distinct (receivedFiles : List String)
    (h : ∀ t ∈ receivedFiles.map fileTopPath, ∀ u ∈ receivedFiles.map fileTopPath,
      (receivedFiles.map fileTopPath).count t = 1 →
      2 ≤ (receivedFiles.map fileTopPath).count u →
      t ≠ u ++ " (" ++ toString ((receivedFiles.map fileTopPath).count u - 1)
        ++ " subfiles)") :
    (topLevelFilesText receivedFiles).Nodup := by
  refine (topLevelFilesText_perm receivedFiles).nodup_iff.2 ?_
  refine List.Nodup.map_on ?_ (List.nodup_dedup _)
  intro x hx y hy hxy
  have hx' : x ∈ receivedFiles.map fileTopPath := List.mem_dedup.1 hx
  have hy' : y ∈ receivedFiles.map fileTopPath := List.mem_dedup.1 hy
  have hxpos : 0 < (receivedFiles.map fileTopPath).count x := List.count_pos_iff.2 hx'
  have hypos : 0 < (receivedFiles.map fileTopPath).count y := List.count_pos_iff.2 hy'
  by_cases h1 : (receivedFiles.map fileTopPath).count x = 1
  · by_cases h2 : (receivedFiles.map fileTopPath).count y = 1
    · simpa only [h1, h2, if_true] using hxy
    · rw [if_pos h1, if_neg h2] at hxy
      exact absurd hxy (h x hx' y hy' h1 (by omega))
  · by_cases h2 : (receivedFiles.map fileTopPath).count y = 1
    · rw [if_neg h1, if_pos h2] at hxy
      exact absurd hxy.symm (h y hy' x hx' h2 (by omega))
    · rw [if_neg h1, if_neg h2] at hxy
      exact annotated_entry_injective x y _ _ hxy

/-- Witness of C19 as amended: the three paths of the specification's example;
their two entries are distinct. -/
theorem View_entries_distinct_witness :
    (∀ t ∈ ["a/b.txt", "a/c.txt", "d.txt"].map fileTopPath,
      ∀ u ∈ ["a/b.txt", "a/c.txt", "d.txt"].map fileTopPath,
      (["a/b.txt", "a/c.txt", "d.txt"].map fileTopPath).count t = 1 →
      2 ≤ (["a/b.txt", "a/c.txt", "d.txt"].map fileTopPath).count u →
      t ≠ u ++ " (" ++ toString ((["a/b.txt", "a/c.txt", "d.txt"].map fileTopPath).count u - 1)
        ++ " subfiles)") ∧
    (topLevelFilesText ["a/b.txt", "a/c.txt", "d.txt"]).Nodup :=
  ⟨by decide, View_entries_distinct ["a/b.txt", "a/c.txt", "d.txt"] (by decide)⟩

/-- C20: two key messages whose strings have the same lower-casing get the
same answer from `Update`, model and command; and when an entry `q` of
`ui.QuitKeys` is its own lower-casing, every key whose string lower-cases to
the same as `q` is answered with `tea.Quit`. -/
theorem Update_KeyMsg_case_insensitive (D : Deps) (m : receiverUIModel D) :
    (∀ k₁ k₂ : D.Key, D.ToLower (D.keyString k₁) = D.ToLower (D.keyString k₂) →
      Update D m (Msg.KeyMsg k₁) = Update D m (Msg.KeyMsg k₂)) ∧
    (∀ q ∈ D.QuitKeys, D.ToLower q = q →
      ∀ k : D.Key, D.ToLower (D.keyString k) = D.ToLower q →
        (Update D m (Msg.KeyMsg k)).2 = Cmd.Quit) := by
  constructor
  · intro k₁ k₂ hk
    simp only [Update, hk]
  · intro q hq hlow k hk
    have hmem : D.ToLower (D.keyString k) ∈ D.QuitKeys := by
      rw [hk, hlow]
      exact hq
    simp [Update, (Contains_iff _ _).2 hmem]

/-- Witness of C20: with the quit keys `ctrl+c`, `q` and `esc`, the keys `Q`
and `q` get the same answer, and `ESC`, a case variant of `esc`, quits. -/
theorem Update_KeyMsg_case_insensitive_witness :
    sampleDeps.ToLower (sampleDeps.keyString "Q")
      = sampleDeps.ToLower (sampleDeps.keyString "q") ∧
    Update sampleDeps (NewReceiverUI sampleDeps) (Msg.KeyMsg "Q")
      = Update sampleDeps (NewReceiverUI sampleDeps) (Msg.KeyMsg "q") ∧
    "esc" ∈ sampleDeps.QuitKeys ∧ sampleDeps.ToLower "esc" = "esc" ∧
    sampleDeps.ToLower (sampleDeps.keyString "ESC") = sampleDeps.ToLower "esc" ∧
    (Update sampleDeps (NewReceiverUI sampleDeps) (Msg.KeyMsg "ESC")).2 = Cmd.Quit :=
  ⟨by decide,
    (Update_KeyMsg_case_insensitive sampleDeps (NewReceiverUI sampleDeps)).1 "Q" "q"
      (by decide),
    by decide, by decide, by decide,
    (Update_KeyMsg_case_insensitive sampleDeps (NewReceiverUI sampleDeps)).2 "esc"
      (by decide) (by decide) "ESC" (by decide)⟩

/-! ## The progress fraction -/

/-- What `SetPercentArg` names is what `Update` calls `SetPercent` with: the
returned bar and command are those of that call. -/
theorem Update_SetPercentArg (D : Deps) (m : receiverUIModel D) (msg : Msg D) (x : D.F64)
    (h : SetPercentArg D msg = some x) :
    (Update D m msg).1.progressBar = (D.SetPercent m.progressBar x).1 ∧
    (Update D m msg).2 = (D.SetPercent m.progressBar x).2 := by
  cases msg with
  | ProgressMsg p =>
    simp only [SetPercentArg, Option.some.injEq] at h
    subst h
    exact ⟨rfl, rfl⟩
  | FinishedMsg fs d =>
    simp only [SetPercentArg, Option.some.injEq] at h
    subst h
    exact ⟨rfl, rfl⟩
  | _ => simp [SetPercentArg] at h

theorem run_ProgressMsg_bar (D : Deps) (m : receiverUIModel D) (ps : List D.F32) :
    (run D m (ps.map Msg.ProgressMsg)).progressBar =
      (ps.map D.toF64).foldl (fun b x => (D.SetPercent b x).1) m.progressBar := by
  induction ps generalizing m with
  | nil => rfl
  | cons p ps ih =>
    simp only [List.map_cons, run, List.foldl_cons]
    rw [ih]
    rfl

/-- C14, counterexample: the single event `ui.ProgressMsg` with fraction 3/2
(a non-decreasing sequence) is handed on as it is: the bar of the recording
instance receives 3/2 from `Update`, which is greater than `1.0`. -/
theorem progress_in_unit_interval_counterexample :
    (Update spyDeps (NewReceiverUI spyDeps)
      (Msg.ProgressMsg (3 / 2 : ℚ))).1.progressBar.rest = [(3 / 2 : ℚ)] ∧
    SetPercentArg spyDeps (Msg.ProgressMsg (3 / 2 : ℚ)) = some (3 / 2 : ℚ) ∧
    List.Chain' (fun a b : ℚ => a ≤ b) [(3 / 2 : ℚ)] ∧
    ¬ ((3 / 2 : ℚ) ≤ (1 : ℚ)) :=
  ⟨rfl, rfl, List.chain'_singleton _, by norm_num⟩

/-- C14, as amended: along a sequence of `ui.ProgressMsg` events the
percentages handed to `progressBar.SetPercent` are the events' fractions
converted to `float64`, one call per event and in their order, unchanged; so
for non-decreasing fractions they are non-decreasing, and each lies in `[0,1]`
when the fraction of its event does. The order on the floating-point numbers
is a parameter, with the conversion order-preserving and exact at 0 and 1. -/
theorem progress_forwarded (D : Deps)
    (le32 : D.F32 → D.F32 → Prop) (le64 : D.F64 → D.F64 → Prop)
    (zero32 one32 : D.F32) (zero64 : D.F64)
    (hmono : ∀ a b, le32 a b → le64 (D.toF64 a) (D.toF64 b))
    (hzero : D.toF64 zero32 = zero64) (hone : D.toF64 one32 = D.one)
    (m : receiverUIModel D) (ps : List D.F32) :
    (ps.map Msg.ProgressMsg).filterMap (SetPercentArg D) = ps.map D.toF64 ∧
    (run D m (ps.map Msg.ProgressMsg)).progressBar =
      (ps.map D.toF64).foldl (fun b x => (D.SetPercent b x).1) m.progressBar ∧
    (List.Chain' le32 ps →
      List.Chain' le64 ((ps.map Msg.ProgressMsg).filterMap (SetPercentArg D))) ∧
    (∀ p ∈ ps, le32 zero32 p → le32 p one32 →
      le64 zero64 (D.toF64 p) ∧ le64 (D.toF64 p) D.one) := by
  have hargs : (ps.map Msg.ProgressMsg).filterMap (SetPercentArg D) = ps.map D.toF64 := by
    induction ps with
    | nil => rfl
    | cons p ps ih => simp [SetPercentArg, List.filterMap_cons, ih]
  refine ⟨hargs, run_ProgressMsg_bar D m ps, ?_, ?_⟩
  · intro hc
    rw [hargs]
    exact List.chain'_map_of_chain' D.toF64 hmono hc
  · intro p _ h0 h1
    exact ⟨hzero ▸ hmono _ _ h0, hone ▸ hmono _ _ h1⟩

/-- Witness of C14 as amended: the fractions 1/4, 1/2 and 1 reach the bar of
the recording instance as 1/4, 1/2 and 1. -/
theorem progress_forwarded_witness :
    (∀ a b : ℚ, a ≤ b → (fun x y : ℚ => x ≤ y) (spyDeps.toF64 a) (spyDeps.toF64 b)) ∧
    spyDeps.toF64 (0 : ℚ) = (0 : ℚ) ∧ spyDeps.toF64 (1 : ℚ) = spyDeps.one ∧
    (run spyDeps (NewReceiverUI spyDeps)
      (([1 / 4, 1 / 2, 1] : List ℚ).map Msg.ProgressMsg)).progressBar.rest
        = ([1 / 4, 1 / 2, 1] : List ℚ) :=
  ⟨fun _ _ h => h, rfl, rfl,
    congrArg ProgressModel.rest
      (progress_forwarded spyDeps (fun a b : ℚ => a ≤ b) (fun a b : ℚ => a ≤ b)
        (0 : ℚ) (1 : ℚ) (0 : ℚ) (fun _ _ h => h) rfl rfl (NewReceiverUI spyDeps)
        ([1 / 4, 1 / 2, 1] : List ℚ)).2.1⟩

end receiverui
